import Mathlib

/-!
# Verification of the DockSuiteX batch scheduling / aggregation layer

Shallow embedding of the batch orchestration code of the DockSuiteX
repository (`docksuitex/batch_docking/*.py`, `docksuitex/pocket_finder.py`)
and proofs of the specification's claims about it.

Modelling conventions:
* Python `dict` objects keyed by task identity are modelled as association
  lists (`List (K × V)`) together with `dictInsert` (assignment: replace in
  place if the key is present, append otherwise — Python's insertion-order
  preserving update) and `dictLookup`.
* A worker's behaviour (the external docking / preparation / pocket-finding
  subprocess, including any exception escaping `future.result()`) is an
  explicit function `exec : Task → Except String Artifact`; the
  non-deterministic `as_completed` completion order is an arbitrary
  permutation `order` of the submitted task list.
* Pocket-center coordinates are modelled as rationals (`ℚ`); the values used
  in concrete statements are dyadic, hence exactly representable as Python
  floats, so Python's `%.2f` float formatting agrees with rational
  round-half-to-even at two decimals, which `fmt2` implements.
-/

set_option autoImplicit false

namespace DockSuiteX

/-- A 3-D pocket center `(x, y, z)`, as passed around by the batch classes. -/
abbrev Center : Type := ℚ × ℚ × ℚ

/-- Task key of the docking batches: `(receptor_name, ligand_name, center)`. -/
abbrev VinaKey : Type := String × String × Center

/-- A per-task outcome as stored in `self.results`: `Path` on success
(modelled by its string), or the error message string on failure. -/
inductive Outcome where
  | ok (path : String)
  | err (msg : String)
deriving DecidableEq, Repr

/-- Python dict assignment `d[k] = v`: replace the value in place when the
key is present (keeping insertion order), append a new entry otherwise. -/
def dictInsert {K V : Type} [DecidableEq K] :
    List (K × V) → K → V → List (K × V)
  | [], k, v => [(k, v)]
  | (k', v') :: rest, k, v =>
      if k' = k then (k, v) :: rest else (k', v') :: dictInsert rest k v

/-- Python dict lookup `d[k]` (as an `Option`). -/
def dictLookup {K V : Type} [DecidableEq K] :
    List (K × V) → K → Option V
  | [], _ => none
  | (k', v) :: rest, k => if k' = k then some v else dictLookup rest k

/-- The key list of a modelled dict, in insertion order. -/
def dictKeys {K V : Type} (d : List (K × V)) : List K := d.map Prod.fst

/-- CPU allocation of `BatchVinaDocking.run_all` / `BatchPocketFinder.run_all`
(`batch_vina.py` lines 140–141, `batch_pocket_finder.py` lines 151–152):
`max_workers = min(cpu, total_tasks)` and
`cpu_per_worker = max(1, cpu // max_workers)` (Python `//` on naturals is
`Nat.div`). Returns `(max_workers, cpu_per_worker)`. -/
def cpuAlloc (cpu total_tasks : ℕ) : ℕ × ℕ :=
  let max_workers := min cpu total_tasks
  let cpu_per_worker := max 1 (cpu / max_workers)
  (max_workers, cpu_per_worker)

/-- C2: for `total_cpu ≥ 1` and `task_count ≥ 1` the allocator returns
`worker_count = min(total_cpu, task_count)` and
`cpu_per_worker = max(1, total_cpu // worker_count)`; it is a pure function,
hence deterministic. -/
theorem cpuAlloc_spec (cpu tasks : ℕ) (hcpu : 1 ≤ cpu) (htasks : 1 ≤ tasks) :
    (cpuAlloc cpu tasks).1 = min cpu tasks ∧
      (cpuAlloc cpu tasks).2 = max 1 (cpu / min cpu tasks) ∧
      ∀ cpu' tasks', cpu' = cpu → tasks' = tasks →
        cpuAlloc cpu' tasks' = cpuAlloc cpu tasks := by
  refine ⟨rfl, rfl, ?_⟩
  intro cpu' tasks' h1 h2
  rw [h1, h2]

/-- Witness for `cpuAlloc_spec` at `cpu = 8`, `tasks = 20`
(Scenario A of the spec: 8 workers, 1 CPU each). -/
theorem cpuAlloc_spec_witness :
    (cpuAlloc 8 20).1 = min 8 20 ∧
      (cpuAlloc 8 20).2 = max 1 (8 / min 8 20) ∧
      ∀ cpu' tasks', cpu' = 8 → tasks' = 20 →
        cpuAlloc cpu' tasks' = cpuAlloc 8 20 :=
  cpuAlloc_spec 8 20 (by decide) (by decide)

/-- C9: the allocation never oversubscribes the budget:
`worker_count * cpu_per_worker ≤ total_cpu` whenever `total_cpu ≥ 1` and
`task_count ≥ 1`. -/
theorem cpuAlloc_no_oversubscription (cpu tasks : ℕ)
    (hcpu : 1 ≤ cpu) (htasks : 1 ≤ tasks) :
    (cpuAlloc cpu tasks).1 * (cpuAlloc cpu tasks).2 ≤ cpu := by
  have hw : min cpu tasks ≤ cpu := min_le_left _ _
  have hw1 : 1 ≤ min cpu tasks := le_min hcpu htasks
  have hdiv1 : 1 ≤ cpu / min cpu tasks :=
    Nat.one_le_div_iff (Nat.lt_of_lt_of_le Nat.zero_lt_one hw1) |>.mpr hw
  have hmax : max 1 (cpu / min cpu tasks) = cpu / min cpu tasks :=
    max_eq_right hdiv1
  show min cpu tasks * max 1 (cpu / min cpu tasks) ≤ cpu
  rw [hmax]
  calc min cpu tasks * (cpu / min cpu tasks)
      = cpu / min cpu tasks * min cpu tasks := Nat.mul_comm _ _
    _ ≤ cpu := Nat.div_mul_le_self _ _

/-- Witness for `cpuAlloc_no_oversubscription` at `cpu = 10`, `tasks = 3`
(the spec's truncation example: 3 workers × 3 CPUs = 9 ≤ 10). -/
theorem cpuAlloc_no_oversubscription_witness :
    (cpuAlloc 10 3).1 * (cpuAlloc 10 3).2 ≤ 10 :=
  cpuAlloc_no_oversubscription 10 3 (by decide) (by decide)

/-- One docking task of `BatchVinaDocking` / `BatchAD4Docking`: the resolved
receptor (by file name), the ligand (by file name) and the pocket center, as
captured in `futures[future] = (receptor, lig, center)`. -/
structure VinaTask where
  receptor : String
  ligand : String
  center : Center
deriving DecidableEq, Repr

/-- The task key used by `self.results`: `(receptor_name, ligand_name, center)`. -/
def VinaTask.key (t : VinaTask) : VinaKey := (t.receptor, t.ligand, t.center)

/-- The task-submission triple loop of `run_all` (`batch_vina.py` lines
150–155, `batch_autodock4.py` lines 195–200): for each receptor, for each of
its centers, for each ligand, submit one task. -/
def buildTasks (receptors : List (String × List Center)) (ligands : List String) :
    List VinaTask :=
  receptors.flatMap fun rc => rc.2.flatMap fun c => ligands.map fun l => ⟨rc.1, l, c⟩

/-- The outcome recorded for one resolved future (`batch_vina.py` lines
159–167): on success the returned result path, on exception the string
`"❌ Failed: {e}"`. -/
def vinaOutcome (exec : VinaTask → Except String String) (t : VinaTask) : Outcome :=
  match exec t with
  | .ok p => .ok p
  | .error e => .err ("❌ Failed: " ++ e)

/-- The aggregation loop of `run_all` (`batch_vina.py` lines 157–167):
iterate over futures in completion order `order`, recording one outcome per
task into `self.results` (initially `results0`) by dict assignment. -/
def runAllVina (results0 : List (VinaKey × Outcome)) (order : List VinaTask)
    (exec : VinaTask → Except String String) : List (VinaKey × Outcome) :=
  order.foldl (fun res t => dictInsert res t.key (vinaOutcome exec t)) results0

section DictLemmas

variable {K V : Type} [DecidableEq K]

theorem dictLookup_append_left_none (d₁ d₂ : List (K × V)) (k : K)
    (h : dictLookup d₁ k = none) :
    dictLookup (d₁ ++ d₂) k = dictLookup d₂ k := by
  induction d₁ with
  | nil => simp
  | cons p rest ih =>
    obtain ⟨k', v⟩ := p
    by_cases hk : k' = k
    · simp [dictLookup, hk] at h
    · simp [dictLookup, hk] at h ⊢
      exact ih h

theorem dictInsert_of_lookup_none (d : List (K × V)) (k : K) (v : V)
    (h : dictLookup d k = none) :
    dictInsert d k v = d ++ [(k, v)] := by
  induction d with
  | nil => rfl
  | cons p rest ih =>
    obtain ⟨k', v'⟩ := p
    by_cases hk : k' = k
    · simp [dictLookup, hk] at h
    · simp [dictLookup, hk] at h
      simp [dictInsert, hk, ih h]

theorem dictKeys_nil : dictKeys ([] : List (K × V)) = [] := rfl

theorem dictKeys_cons (p : K × V) (d : List (K × V)) :
    dictKeys (p :: d) = p.1 :: dictKeys d := rfl

theorem mem_dictKeys_dictInsert (d : List (K × V)) (k : K) (v : V) (a : K)
    (h : a ∈ dictKeys d) : a ∈ dictKeys (dictInsert d k v) := by
  induction d with
  | nil => simp [dictKeys] at h
  | cons p rest ih =>
    obtain ⟨k', v'⟩ := p
    rw [dictKeys_cons] at h
    by_cases hk : k' = k
    · rw [show dictInsert ((k', v') :: rest) k v = (k, v) :: rest from by
        simp [dictInsert, hk], dictKeys_cons]
      rcases List.mem_cons.mp h with h | h
      · subst h
        rw [hk]
        exact List.mem_cons_self _ _
      · exact List.mem_cons_of_mem _ h
    · rw [show dictInsert ((k', v') :: rest) k v = (k', v') :: dictInsert rest k v from by
        simp [dictInsert, hk], dictKeys_cons]
      rcases List.mem_cons.mp h with h | h
      · exact h ▸ List.mem_cons_self _ _
      · exact List.mem_cons_of_mem _ (ih h)

theorem dictLookup_of_mem_of_nodup (d : List (K × V)) (k : K) (v : V)
    (hmem : (k, v) ∈ d) (hnd : (dictKeys d).Nodup) :
    dictLookup d k = some v := by
  induction d with
  | nil => simp at hmem
  | cons p rest ih =>
    obtain ⟨k', v'⟩ := p
    rw [dictKeys_cons] at hnd
    have hnd1 : k' ∉ dictKeys rest := (List.nodup_cons.mp hnd).1
    have hnd2 : (dictKeys rest).Nodup := (List.nodup_cons.mp hnd).2
    rcases List.mem_cons.mp hmem with h | h
    · cases h
      simp [dictLookup]
    · have hk : k' ≠ k := by
        intro hkk
        exact hnd1 (hkk ▸ List.mem_map_of_mem Prod.fst h)
      simp [dictLookup, hk]
      exact ih h hnd2

end DictLemmas

/-- When every submitted key is fresh and the submitted keys are pairwise
distinct, the aggregation loop appends exactly one `(key, outcome)` entry
per task, in completion order. -/
theorem runAllVina_eq_append (results0 : List (VinaKey × Outcome))
    (order : List VinaTask) (exec : VinaTask → Except String String)
    (hnd : (order.map VinaTask.key).Nodup)
    (hfresh : ∀ t ∈ order, dictLookup results0 t.key = none) :
    runAllVina results0 order exec
      = results0 ++ order.map fun t => (t.key, vinaOutcome exec t) := by
  induction order generalizing results0 with
  | nil => simp [runAllVina]
  | cons t rest ih =>
    have hfresh_t : dictLookup results0 t.key = none := hfresh t (by simp)
    have hstep : dictInsert results0 t.key (vinaOutcome exec t)
        = results0 ++ [(t.key, vinaOutcome exec t)] :=
      dictInsert_of_lookup_none _ _ _ hfresh_t
    have hnd' : (rest.map VinaTask.key).Nodup := (List.nodup_cons.mp hnd).2
    have hkey_notin : t.key ∉ rest.map VinaTask.key := (List.nodup_cons.mp hnd).1
    have hfresh' : ∀ s ∈ rest,
        dictLookup (results0 ++ [(t.key, vinaOutcome exec t)]) s.key = none := by
      intro s hs
      have hne : t.key ≠ s.key := by
        intro he
        exact hkey_notin (he ▸ List.mem_map_of_mem VinaTask.key hs)
      rw [dictLookup_append_left_none _ _ _ (hfresh s (List.mem_cons_of_mem _ hs))]
      simp [dictLookup, hne]
    calc runAllVina results0 (t :: rest) exec
        = runAllVina (results0 ++ [(t.key, vinaOutcome exec t)]) rest exec := by
          simp [runAllVina, List.foldl_cons, hstep]
      _ = results0 ++ [(t.key, vinaOutcome exec t)]
            ++ rest.map fun s => (s.key, vinaOutcome exec s) := ih _ hnd' hfresh'
      _ = results0 ++ (t :: rest).map fun s => (s.key, vinaOutcome exec s) := by
          simp

/-- Keys already present in `self.results` survive any later `run_all`. -/
theorem runAllVina_preserves_keys (results0 : List (VinaKey × Outcome))
    (order : List VinaTask) (exec : VinaTask → Except String String)
    (k : VinaKey) (h : k ∈ dictKeys results0) :
    k ∈ dictKeys (runAllVina results0 order exec) := by
  induction order generalizing results0 with
  | nil => exact h
  | cons t rest ih =>
    exact ih _ (mem_dictKeys_dictInsert _ _ _ _ h)

/-- A pocket record parsed from the P2Rank report
(`pocket_finder.py` line 190): `{"rank": idx, "center": (x, y, z)}`. -/
structure Pocket where
  rank : ℕ
  center : Center
deriving DecidableEq, Repr

/-- Result dict of `BatchPocketFinder._process_one` (`batch_pocket_finder.py`
lines 97–121): on success `{"file", "status": "success", "pockets", ...}`, on
any exception `{"file", "status": "error", "error", ...}` (the `output_dir`
and `traceback` fields, used only for console echo, are elided). -/
inductive PFResult where
  | success (file : String) (pockets : List Pocket)
  | failure (file : String) (error : String)
deriving DecidableEq, Repr

/-- `BatchPocketFinder._process_one`, with `PocketFinder(...).run(...)` (the
external P2Rank invocation) abstracted as `run`. -/
def processOnePF (run : String → Except String (List Pocket))
    (file : String) : PFResult :=
  match run file with
  | .ok pockets => .success file pockets
  | .error e => .failure file e

/-- Whether pocket finding succeeds for `file` under worker behaviour `run`. -/
def pfSucceeds (run : String → Except String (List Pocket))
    (file : String) : Bool :=
  match run file with
  | .ok _ => true
  | .error _ => false

/-- The centers recorded for a successful file
(`centers = [p["center"] for p in pockets]`, line 177). -/
def pfCenters (run : String → Except String (List Pocket))
    (file : String) : List Center :=
  match run file with
  | .ok pockets => pockets.map Pocket.center
  | .error _ => []

/-- The aggregation loop of `BatchPocketFinder.run_all`
(`batch_pocket_finder.py` lines 169–185): on success insert
`self.results[file_path] = centers`; on failure only print — the failed file
is NOT added to `self.results`. -/
def runAllPocketFinder (results0 : List (String × List Center))
    (order : List String) (run : String → Except String (List Pocket)) :
    List (String × List Center) :=
  order.foldl
    (fun res f =>
      match processOnePF run f with
      | .success file pockets => dictInsert res file (pockets.map Pocket.center)
      | .failure _ _ => res)
    results0

/-- With fresh, pairwise-distinct files, `BatchPocketFinder.run_all` appends
one entry per SUCCESSFUL file only, in completion order. -/
theorem runAllPocketFinder_eq_append (results0 : List (String × List Center))
    (order : List String) (run : String → Except String (List Pocket))
    (hnd : order.Nodup)
    (hfresh : ∀ f ∈ order, dictLookup results0 f = none) :
    runAllPocketFinder results0 order run
      = results0 ++ (order.filter (pfSucceeds run)).map
          fun f => (f, pfCenters run f) := by
  induction order generalizing results0 with
  | nil => simp [runAllPocketFinder]
  | cons f rest ih =>
    have hnd' : rest.Nodup := (List.nodup_cons.mp hnd).2
    have hf_notin : f ∉ rest := (List.nodup_cons.mp hnd).1
    have hfresh_f : dictLookup results0 f = none := hfresh f (by simp)
    cases hrun : run f with
    | ok pockets =>
      have hsucc : pfSucceeds run f = true := by simp [pfSucceeds, hrun]
      have hcent : pockets.map Pocket.center = pfCenters run f := by
        simp [pfCenters, hrun]
      have hstep : dictInsert results0 f (pockets.map Pocket.center)
          = results0 ++ [(f, pfCenters run f)] := by
        rw [hcent]
        exact dictInsert_of_lookup_none _ _ _ hfresh_f
      have hfresh' : ∀ g ∈ rest,
          dictLookup (results0 ++ [(f, pfCenters run f)]) g = none := by
        intro g hg
        have hne : f ≠ g := fun he => hf_notin (he ▸ hg)
        rw [dictLookup_append_left_none _ _ _ (hfresh g (List.mem_cons_of_mem _ hg))]
        simp [dictLookup, hne]
      calc runAllPocketFinder results0 (f :: rest) run
          = runAllPocketFinder (results0 ++ [(f, pfCenters run f)]) rest run := by
            simp [runAllPocketFinder, List.foldl_cons, processOnePF, hrun, hstep]
        _ = results0 ++ [(f, pfCenters run f)]
              ++ (rest.filter (pfSucceeds run)).map
                  (fun g => (g, pfCenters run g)) := ih _ hnd' hfresh'
        _ = results0 ++ ((f :: rest).filter (pfSucceeds run)).map
              (fun g => (g, pfCenters run g)) := by
            simp [List.filter_cons, hsucc]
    | error e =>
      have hfail : pfSucceeds run f = false := by simp [pfSucceeds, hrun]
      have hfresh' : ∀ g ∈ rest, dictLookup results0 g = none :=
        fun g hg => hfresh g (List.mem_cons_of_mem _ hg)
      calc runAllPocketFinder results0 (f :: rest) run
          = runAllPocketFinder results0 rest run := by
            simp [runAllPocketFinder, List.foldl_cons, processOnePF, hrun]
        _ = results0 ++ (rest.filter (pfSucceeds run)).map
              (fun g => (g, pfCenters run g)) := ih _ hnd' hfresh'
        _ = results0 ++ ((f :: rest).filter (pfSucceeds run)).map
              (fun g => (g, pfCenters run g)) := by
            simp [List.filter_cons, hfail]

/-- Result dict of `BatchLigand._process_one` (`batch_ligand.py` lines
117–141): success carries `pdbqt_path`; failure carries the error message
(`traceback`, used only for console echo, is elided). -/
inductive LigResult where
  | success (file : String) (pdbqt_path : String)
  | failure (file : String) (error : String)
deriving DecidableEq, Repr

/-- The `"file"` field of a `_process_one` result dict. -/
def LigResult.file : LigResult → String
  | .success f _ => f
  | .failure f _ => f

/-- Whether a `_process_one` result dict has `status == "success"`. -/
def LigResult.isSuccess : LigResult → Bool
  | .success _ _ => true
  | .failure _ _ => false

/-- `BatchLigand._process_one`, with `Ligand(...).prepare(...)` (the external
preparation toolchain) abstracted as `prepare`; every exception is caught and
converted into an error dict. -/
def processOneLig (prepare : String → Except String String)
    (file : String) : LigResult :=
  match prepare file with
  | .ok p => .success file p
  | .error e => .failure file e

/-- The aggregation loop of `BatchLigand.prepare_all` (`batch_ligand.py`
lines 185–191): append each result dict to `self.results` (initially
`results0`) in completion order. -/
def prepareAllLig (results0 : List LigResult) (order : List String)
    (prepare : String → Except String String) : List LigResult :=
  order.foldl (fun acc f => acc ++ [processOneLig prepare f]) results0

/-- `prepare_all` only appends: the previous `self.results` is a prefix and
the new entries are one per submitted file. -/
theorem prepareAllLig_eq_append (results0 : List LigResult)
    (order : List String) (prepare : String → Except String String) :
    prepareAllLig results0 order prepare
      = results0 ++ order.map (processOneLig prepare) := by
  induction order generalizing results0 with
  | nil => simp [prepareAllLig]
  | cons f rest ih =>
    calc prepareAllLig results0 (f :: rest) prepare
        = prepareAllLig (results0 ++ [processOneLig prepare f]) rest prepare := by
          simp [prepareAllLig, List.foldl_cons]
      _ = results0 ++ [processOneLig prepare f]
            ++ rest.map (processOneLig prepare) := ih _
      _ = results0 ++ (f :: rest).map (processOneLig prepare) := by simp

/-- Whether a recorded outcome is a success (`isinstance(v, Path)` in the
source's duck-typed convention). -/
def outcomeIsOk : Outcome → Bool
  | .ok _ => true
  | .err _ => false

section CountHelpers

variable {α : Type}

theorem countP_bool_split (l : List α) (p : α → Bool) :
    l.countP p + l.countP (fun a => !(p a)) = l.length := by
  induction l with
  | nil => rfl
  | cons a rest ih =>
    by_cases h : p a = true
    · simp [List.countP_cons, h]
      omega
    · simp [List.countP_cons, h]
      omega

theorem countP_eq_one_of_unique (l : List α) (p : α → Bool) (a : α)
    (hnd : l.Nodup) (ha : a ∈ l) (hp : ∀ b ∈ l, p b = true ↔ b = a) :
    l.countP p = 1 := by
  induction l with
  | nil => simp at ha
  | cons b rest ih =>
    have hnd1 : b ∉ rest := (List.nodup_cons.mp hnd).1
    have hnd2 : rest.Nodup := (List.nodup_cons.mp hnd).2
    rcases List.mem_cons.mp ha with hab | ha'
    · have hpb : p b = true := (hp b (by simp)).mpr hab.symm
      have hzero : rest.countP p = 0 := by
        rw [List.countP_eq_zero]
        intro c hc hpc
        have : c = a := (hp c (List.mem_cons_of_mem _ hc)).mp hpc
        exact hnd1 ((this.trans hab) ▸ hc)
      simp [List.countP_cons, hpb, hzero]
    · have hba : b ≠ a := by
        intro he
        exact hnd1 (he ▸ ha')
      have hpb : ¬p b = true := fun hpb => hba ((hp b (by simp)).mp hpb)
      have hrest : rest.countP p = 1 :=
        ih hnd2 ha' fun c hc => hp c (List.mem_cons_of_mem _ hc)
      simp [List.countP_cons, hpb, hrest]

end CountHelpers

/-- C1 (amended): with pairwise-distinct task keys, the docking batches'
`run_all` produces exactly one outcome entry per submitted task (the result's
key list is a permutation of the submitted key list), for any completion
order and any per-task success/failure behaviour; `BatchPocketFinder.run_all`
records an entry only for each file whose task succeeds. -/
theorem run_all_one_outcome_per_task
    (tasks order : List VinaTask) (exec : VinaTask → Except String String)
    (files orderPF : List String) (run : String → Except String (List Pocket))
    (hperm : order.Perm tasks) (hnd : (tasks.map VinaTask.key).Nodup)
    (hpermPF : orderPF.Perm files) (hndPF : files.Nodup) :
    (dictKeys (runAllVina [] order exec)).Perm (tasks.map VinaTask.key)
      ∧ (dictKeys (runAllPocketFinder [] orderPF run)).Perm
          (files.filter (pfSucceeds run)) := by
  constructor
  · have hndo : (order.map VinaTask.key).Nodup :=
      ((hperm.map VinaTask.key).nodup_iff).mpr hnd
    rw [runAllVina_eq_append [] order exec hndo (fun t _ => rfl)]
    have hk : dictKeys (([] : List (VinaKey × Outcome))
          ++ order.map fun t => (t.key, vinaOutcome exec t))
        = order.map VinaTask.key := by
      rw [List.nil_append]
      unfold dictKeys
      rw [List.map_map]
      rfl
    rw [hk]
    exact hperm.map VinaTask.key
  · have hndoPF : orderPF.Nodup := (hpermPF.nodup_iff).mpr hndPF
    rw [runAllPocketFinder_eq_append [] orderPF run hndoPF (fun f _ => rfl)]
    have hk : dictKeys (([] : List (String × List Center))
          ++ (orderPF.filter (pfSucceeds run)).map fun f => (f, pfCenters run f))
        = orderPF.filter (pfSucceeds run) := by
      rw [List.nil_append]
      unfold dictKeys
      rw [List.map_map]
      exact List.map_id _
    rw [hk]
    exact hpermPF.filter (pfSucceeds run)

/-- Witness for `run_all_one_outcome_per_task`: one docking task that
succeeds and one pocket-finding file whose task fails. -/
theorem run_all_one_outcome_per_task_witness :
    (dictKeys (runAllVina []
        [⟨"R1.pdbqt", "L1.pdbqt", ((1 : ℚ), (2 : ℚ), (3 : ℚ))⟩]
        fun _ => Except.ok "out")).Perm
      (([⟨"R1.pdbqt", "L1.pdbqt", ((1 : ℚ), (2 : ℚ), (3 : ℚ))⟩] :
          List VinaTask).map VinaTask.key)
      ∧ (dictKeys (runAllPocketFinder [] ["p1.pdb"]
          fun _ => Except.error "Error running P2Rank")).Perm
        (["p1.pdb"].filter (pfSucceeds fun _ => Except.error "Error running P2Rank")) :=
  run_all_one_outcome_per_task
    [⟨"R1.pdbqt", "L1.pdbqt", ((1 : ℚ), (2 : ℚ), (3 : ℚ))⟩]
    [⟨"R1.pdbqt", "L1.pdbqt", ((1 : ℚ), (2 : ℚ), (3 : ℚ))⟩]
    (fun _ => Except.ok "out") ["p1.pdb"] ["p1.pdb"]
    (fun _ => Except.error "Error running P2Rank")
    (List.Perm.refl _) (by simp) (List.Perm.refl _) (by simp)

/-- C1 counterexample: a `BatchPocketFinder` batch with a single submitted
file whose task fails returns an EMPTY outcome mapping — the submitted task
is silently dropped from the result (`batch_pocket_finder.py` lines
182–185 record nothing on failure). -/
theorem runAllPocketFinder_drops_failed_task :
    runAllPocketFinder [] ["protein1.pdb"]
        (fun _ => Except.error "Error running P2Rank") = [] := rfl

/-- C3: in a batch of `N` tasks where exactly one task raises and the other
`N−1` succeed, `run_all` (resp. `prepare_all`) returns normally — both are
total functions whose per-task exceptions are data — with `N−1` success
entries and exactly one failure entry, recorded against the failing task's
key. -/
theorem failure_isolation
    (tasks order : List VinaTask) (exec : VinaTask → Except String String)
    (t₀ : VinaTask) (e₀ : String)
    (hperm : order.Perm tasks) (hnd : (tasks.map VinaTask.key).Nodup)
    (ht₀ : t₀ ∈ tasks) (hfail : exec t₀ = Except.error e₀)
    (hok : ∀ t ∈ tasks, t ≠ t₀ → ∃ p, exec t = Except.ok p)
    (files orderL : List String) (prepare : String → Except String String)
    (f₀ err₀ : String)
    (hpermL : orderL.Perm files) (hndL : files.Nodup)
    (hf₀ : f₀ ∈ files) (hfailL : prepare f₀ = Except.error err₀)
    (hokL : ∀ f ∈ files, f ≠ f₀ → ∃ p, prepare f = Except.ok p) :
    ((runAllVina [] order exec).length = tasks.length
      ∧ (runAllVina [] order exec).countP (fun kv => outcomeIsOk kv.2)
          = tasks.length - 1
      ∧ (runAllVina [] order exec).countP (fun kv => !(outcomeIsOk kv.2)) = 1
      ∧ dictLookup (runAllVina [] order exec) t₀.key
          = some (Outcome.err ("❌ Failed: " ++ e₀)))
    ∧ ((prepareAllLig [] orderL prepare).length = files.length
      ∧ (prepareAllLig [] orderL prepare).countP LigResult.isSuccess
          = files.length - 1
      ∧ (prepareAllLig [] orderL prepare).countP (fun r => !(r.isSuccess)) = 1
      ∧ LigResult.failure f₀ err₀ ∈ prepareAllLig [] orderL prepare) := by
  have htasks_nd : tasks.Nodup := List.Nodup.of_map VinaTask.key hnd
  have hndo : (order.map VinaTask.key).Nodup :=
    ((hperm.map VinaTask.key).nodup_iff).mpr hnd
  have hres : runAllVina [] order exec
      = order.map fun t => (t.key, vinaOutcome exec t) := by
    rw [runAllVina_eq_append [] order exec hndo (fun t _ => rfl), List.nil_append]
  have hfail_countP :
      tasks.countP (fun t => !(outcomeIsOk (vinaOutcome exec t))) = 1 := by
    refine countP_eq_one_of_unique tasks _ t₀ htasks_nd ht₀ ?_
    intro b hb
    constructor
    · intro hpb
      by_contra hne
      obtain ⟨p, hp⟩ := hok b hb hne
      simp [vinaOutcome, hp, outcomeIsOk] at hpb
    · intro hb0
      subst hb0
      simp [vinaOutcome, hfail, outcomeIsOk]
  have hcount_fail : (runAllVina [] order exec).countP
      (fun kv => !(outcomeIsOk kv.2)) = 1 := by
    rw [hres, List.countP_map]
    rw [List.Perm.countP_eq _ hperm]
    exact hfail_countP
  have hlen : (runAllVina [] order exec).length = tasks.length := by
    rw [hres, List.length_map, hperm.length_eq]
  have hcount_ok : (runAllVina [] order exec).countP
      (fun kv => outcomeIsOk kv.2) = tasks.length - 1 := by
    have hsplit := countP_bool_split (runAllVina [] order exec)
      (fun kv => outcomeIsOk kv.2)
    omega
  have hlook : dictLookup (runAllVina [] order exec) t₀.key
      = some (Outcome.err ("❌ Failed: " ++ e₀)) := by
    have ht₀o : t₀ ∈ order := (hperm.mem_iff).mpr ht₀
    have hmem : (t₀.key, Outcome.err ("❌ Failed: " ++ e₀))
        ∈ runAllVina [] order exec := by
      rw [hres]
      have : (t₀.key, vinaOutcome exec t₀)
          ∈ order.map fun t => (t.key, vinaOutcome exec t) :=
        List.mem_map_of_mem _ ht₀o
      simpa [vinaOutcome, hfail] using this
    have hknd : (dictKeys (runAllVina [] order exec)).Nodup := by
      rw [hres]
      unfold dictKeys
      rw [List.map_map]
      exact hndo
    exact dictLookup_of_mem_of_nodup _ _ _ hmem hknd
  have hresL : prepareAllLig [] orderL prepare
      = orderL.map (processOneLig prepare) := by
    rw [prepareAllLig_eq_append, List.nil_append]
  have hfail_countL :
      files.countP (fun f => !((processOneLig prepare f).isSuccess)) = 1 := by
    refine countP_eq_one_of_unique files _ f₀ hndL hf₀ ?_
    intro b hb
    constructor
    · intro hpb
      by_contra hne
      obtain ⟨p, hp⟩ := hokL b hb hne
      simp [processOneLig, hp, LigResult.isSuccess] at hpb
    · intro hb0
      subst hb0
      simp [processOneLig, hfailL, LigResult.isSuccess]
  have hcount_failL : (prepareAllLig [] orderL prepare).countP
      (fun r => !(r.isSuccess)) = 1 := by
    rw [hresL, List.countP_map]
    rw [List.Perm.countP_eq _ hpermL]
    exact hfail_countL
  have hlenL : (prepareAllLig [] orderL prepare).length = files.length := by
    rw [hresL, List.length_map, hpermL.length_eq]
  have hcount_okL : (prepareAllLig [] orderL prepare).countP
      LigResult.isSuccess = files.length - 1 := by
    have hsplit := countP_bool_split (prepareAllLig [] orderL prepare)
      LigResult.isSuccess
    omega
  have hmemL : LigResult.failure f₀ err₀ ∈ prepareAllLig [] orderL prepare := by
    rw [hresL]
    have hf₀o : f₀ ∈ orderL := (hpermL.mem_iff).mpr hf₀
    have : processOneLig prepare f₀ ∈ orderL.map (processOneLig prepare) :=
      List.mem_map_of_mem _ hf₀o
    simpa [processOneLig, hfailL] using this
  exact ⟨⟨hlen, hcount_ok, hcount_fail, hlook⟩,
    ⟨hlenL, hcount_okL, hcount_failL, hmemL⟩⟩

/-- Witness for `failure_isolation`: two docking tasks of which the second
fails, and two preparation files of which the second fails. -/
theorem failure_isolation_witness :
    ((runAllVina []
        [⟨"R1.pdbqt", "L1.pdbqt", ((1 : ℚ), (2 : ℚ), (3 : ℚ))⟩,
         ⟨"R1.pdbqt", "L2.pdbqt", ((1 : ℚ), (2 : ℚ), (3 : ℚ))⟩]
        fun t => if t.ligand = "L2.pdbqt" then Except.error "boom"
          else Except.ok "out").length = 2
      ∧ (runAllVina []
          [⟨"R1.pdbqt", "L1.pdbqt", ((1 : ℚ), (2 : ℚ), (3 : ℚ))⟩,
           ⟨"R1.pdbqt", "L2.pdbqt", ((1 : ℚ), (2 : ℚ), (3 : ℚ))⟩]
          fun t => if t.ligand = "L2.pdbqt" then Except.error "boom"
            else Except.ok "out").countP (fun kv => outcomeIsOk kv.2) = 1
      ∧ (runAllVina []
          [⟨"R1.pdbqt", "L1.pdbqt", ((1 : ℚ), (2 : ℚ), (3 : ℚ))⟩,
           ⟨"R1.pdbqt", "L2.pdbqt", ((1 : ℚ), (2 : ℚ), (3 : ℚ))⟩]
          fun t => if t.ligand = "L2.pdbqt" then Except.error "boom"
            else Except.ok "out").countP (fun kv => !(outcomeIsOk kv.2)) = 1
      ∧ dictLookup (runAllVina []
          [⟨"R1.pdbqt", "L1.pdbqt", ((1 : ℚ), (2 : ℚ), (3 : ℚ))⟩,
           ⟨"R1.pdbqt", "L2.pdbqt", ((1 : ℚ), (2 : ℚ), (3 : ℚ))⟩]
          fun t => if t.ligand = "L2.pdbqt" then Except.error "boom"
            else Except.ok "out")
          (VinaTask.key ⟨"R1.pdbqt", "L2.pdbqt", ((1 : ℚ), (2 : ℚ), (3 : ℚ))⟩)
          = some (Outcome.err ("❌ Failed: " ++ "boom")))
    ∧ ((prepareAllLig [] ["a.sdf", "b.sdf"]
        fun f => if f = "b.sdf" then Except.error "bad"
          else Except.ok "out.pdbqt").length = 2
      ∧ (prepareAllLig [] ["a.sdf", "b.sdf"]
          fun f => if f = "b.sdf" then Except.error "bad"
            else Except.ok "out.pdbqt").countP LigResult.isSuccess = 1
      ∧ (prepareAllLig [] ["a.sdf", "b.sdf"]
          fun f => if f = "b.sdf" then Except.error "bad"
            else Except.ok "out.pdbqt").countP (fun r => !(r.isSuccess)) = 1
      ∧ LigResult.failure "b.sdf" "bad" ∈ prepareAllLig [] ["a.sdf", "b.sdf"]
          fun f => if f = "b.sdf" then Except.error "bad"
            else Except.ok "out.pdbqt") :=
  failure_isolation
    [⟨"R1.pdbqt", "L1.pdbqt", ((1 : ℚ), (2 : ℚ), (3 : ℚ))⟩,
     ⟨"R1.pdbqt", "L2.pdbqt", ((1 : ℚ), (2 : ℚ), (3 : ℚ))⟩]
    [⟨"R1.pdbqt", "L1.pdbqt", ((1 : ℚ), (2 : ℚ), (3 : ℚ))⟩,
     ⟨"R1.pdbqt", "L2.pdbqt", ((1 : ℚ), (2 : ℚ), (3 : ℚ))⟩]
    (fun t => if t.ligand = "L2.pdbqt" then Except.error "boom"
      else Except.ok "out")
    ⟨"R1.pdbqt", "L2.pdbqt", ((1 : ℚ), (2 : ℚ), (3 : ℚ))⟩ "boom"
    (List.Perm.refl _) (by simp [VinaTask.key]) (by simp) (by simp)
    (by
      intro t ht hne
      rcases List.mem_cons.mp ht with h | h
      · subst h
        exact ⟨"out", by simp⟩
      · rcases List.mem_cons.mp h with h | h
        · exact absurd h hne
        · simp at h)
    ["a.sdf", "b.sdf"] ["a.sdf", "b.sdf"]
    (fun f => if f = "b.sdf" then Except.error "bad" else Except.ok "out.pdbqt")
    "b.sdf" "bad"
    (List.Perm.refl _) (by simp) (by simp) (by simp)
    (by
      intro f hf hne
      rcases List.mem_cons.mp hf with h | h
      · subst h
        exact ⟨"out.pdbqt", by simp⟩
      · rcases List.mem_cons.mp h with h | h
        · exact absurd h hne
        · simp at h)

/-- C10: neither `run_all` nor `prepare_all` clears `self.results` between
invocations: every key recorded by earlier `run_all` calls is still present
afterwards (dict-based batches only add or overwrite per key), and
`prepare_all` returns the previous result list with the new per-file entries
appended. -/
theorem results_never_cleared :
    (∀ (results0 : List (VinaKey × Outcome)) (order : List VinaTask)
        (exec : VinaTask → Except String String) (k : VinaKey),
        k ∈ dictKeys results0 → k ∈ dictKeys (runAllVina results0 order exec))
    ∧ ∀ (results0 : List LigResult) (order : List String)
        (prepare : String → Except String String),
        prepareAllLig results0 order prepare
          = results0 ++ order.map (processOneLig prepare) :=
  ⟨fun r o e k h => runAllVina_preserves_keys r o e k h,
   fun r o p => prepareAllLig_eq_append r o p⟩

/-- Witness for `results_never_cleared`: a key recorded by a first batch run
survives a second run over a different task, and a second `prepare_all`
appends to the first call's list. -/
theorem results_never_cleared_witness :
    (("R1.pdbqt", "L1.pdbqt", ((1 : ℚ), (2 : ℚ), (3 : ℚ)))
        ∈ dictKeys (runAllVina
          [(("R1.pdbqt", "L1.pdbqt", ((1 : ℚ), (2 : ℚ), (3 : ℚ))), Outcome.ok "old")]
          [⟨"R2.pdbqt", "L2.pdbqt", ((4 : ℚ), (5 : ℚ), (6 : ℚ))⟩]
          fun _ => Except.ok "new"))
    ∧ prepareAllLig [LigResult.success "a.sdf" "a.pdbqt"] ["b.sdf"]
        (fun _ => Except.ok "b.pdbqt")
      = [LigResult.success "a.sdf" "a.pdbqt"]
        ++ ["b.sdf"].map (processOneLig fun _ => Except.ok "b.pdbqt") :=
  ⟨results_never_cleared.1
      [(("R1.pdbqt", "L1.pdbqt", ((1 : ℚ), (2 : ℚ), (3 : ℚ))), Outcome.ok "old")]
      [⟨"R2.pdbqt", "L2.pdbqt", ((4 : ℚ), (5 : ℚ), (6 : ℚ))⟩]
      (fun _ => Except.ok "new")
      ("R1.pdbqt", "L1.pdbqt", ((1 : ℚ), (2 : ℚ), (3 : ℚ))) (by simp [dictKeys]),
   results_never_cleared.2 [LigResult.success "a.sdf" "a.pdbqt"] ["b.sdf"]
      fun _ => Except.ok "b.pdbqt"⟩

theorem sum_map_const_nat {α : Type} (l : List α) (n : ℕ) :
    (l.map fun _ => n).sum = l.length * n := by
  induction l with
  | nil => simp
  | cons a rest ih =>
    simp [List.map_cons, List.sum_cons, ih, List.length_cons, Nat.succ_mul]
    omega

/-- C4: the submission loop emits exactly
`Σ_receptor |centers(receptor)| · |ligands|` tasks, keyed by
`(receptor_name, ligand_name, center)`, and the keys are pairwise distinct
whenever receptor names, ligand names and each receptor's centers are. -/
theorem buildTasks_cross_product
    (receptors : List (String × List Center)) (ligands : List String)
    (hlig : ligands ≠ [])
    (hrn : (receptors.map Prod.fst).Nodup)
    (hln : ligands.Nodup)
    (hcn : ∀ rc ∈ receptors, rc.2.Nodup) :
    (buildTasks receptors ligands).length
        = (receptors.map fun rc => rc.2.length * ligands.length).sum
      ∧ ((buildTasks receptors ligands).map VinaTask.key).Nodup := by
  constructor
  · unfold buildTasks
    rw [List.length_flatMap]
    congr 1
    apply List.map_congr_left
    intro rc _
    show (rc.2.flatMap fun c => ligands.map fun l => VinaTask.mk rc.1 l c).length
        = rc.2.length * ligands.length
    rw [List.length_flatMap]
    calc (rc.2.map (List.length ∘ fun c => ligands.map fun l => VinaTask.mk rc.1 l c)).sum
        = (rc.2.map fun _ => ligands.length).sum := by
          apply congrArg
          apply List.map_congr_left
          intro c _
          simp
      _ = rc.2.length * ligands.length := sum_map_const_nat _ _
  · have hkey_inj : Function.Injective VinaTask.key := by
      intro a b h
      cases a; cases b
      simpa [VinaTask.key, Prod.ext_iff, VinaTask.mk.injEq] using h
    rw [List.nodup_map_iff hkey_inj]
    unfold buildTasks
    rw [List.nodup_flatMap]
    constructor
    · intro rc hrc
      rw [List.nodup_flatMap]
      constructor
      · intro c _
        refine List.Nodup.map ?_ hln
        intro l₁ l₂ h
        simpa [VinaTask.mk.injEq] using h
      · have hpair : rc.2.Pairwise (· ≠ ·) := hcn rc hrc
        refine hpair.imp ?_
        intro c₁ c₂ hne
        intro t ht₁ ht₂
        obtain ⟨l₁, _, rfl⟩ := List.mem_map.mp ht₁
        obtain ⟨l₂, _, he⟩ := List.mem_map.mp ht₂
        simp only [VinaTask.mk.injEq] at he
        exact hne he.2.2.symm
    · have hpair : receptors.Pairwise (fun a b => a.1 ≠ b.1) := by
        have := List.pairwise_map.mp hrn
        exact this
      refine hpair.imp ?_
      intro rc₁ rc₂ hne
      intro t ht₁ ht₂
      obtain ⟨c₁, _, hc₁⟩ := List.mem_flatMap.mp ht₁
      obtain ⟨c₂, _, hc₂⟩ := List.mem_flatMap.mp ht₂
      obtain ⟨l₁, _, rfl⟩ := List.mem_map.mp hc₁
      obtain ⟨l₂, _, he⟩ := List.mem_map.mp hc₂
      simp only [VinaTask.mk.injEq] at he
      exact hne he.1.symm

/-- Witness for `buildTasks_cross_product` at the spec's Scenario C:
receptors `{"R1": [(1,2,3)], "R2": [(4,5,6), (7,8,9)]}` and ligands
`["L1", "L2"]` give `1*2 + 2*2 = 6` pairwise-distinct task keys. -/
theorem buildTasks_cross_product_witness :
    (buildTasks
        [("R1", [((1 : ℚ), (2 : ℚ), (3 : ℚ))]),
         ("R2", [((4 : ℚ), (5 : ℚ), (6 : ℚ)), ((7 : ℚ), (8 : ℚ), (9 : ℚ))])]
        ["L1", "L2"]).length
      = (([("R1", [((1 : ℚ), (2 : ℚ), (3 : ℚ))]),
          ("R2", [((4 : ℚ), (5 : ℚ), (6 : ℚ)), ((7 : ℚ), (8 : ℚ), (9 : ℚ))])] :
            List (String × List Center)).map
          fun rc => rc.2.length * (["L1", "L2"] : List String).length).sum
    ∧ ((buildTasks
        [("R1", [((1 : ℚ), (2 : ℚ), (3 : ℚ))]),
         ("R2", [((4 : ℚ), (5 : ℚ), (6 : ℚ)), ((7 : ℚ), (8 : ℚ), (9 : ℚ))])]
        ["L1", "L2"]).map VinaTask.key).Nodup :=
  buildTasks_cross_product
    [("R1", [((1 : ℚ), (2 : ℚ), (3 : ℚ))]),
     ("R2", [((4 : ℚ), (5 : ℚ), (6 : ℚ)), ((7 : ℚ), (8 : ℚ), (9 : ℚ))])]
    ["L1", "L2"] (by simp) (by simp) (by simp)
    (by
      intro rc hrc
      rcases List.mem_cons.mp hrc with h | h
      · subst h; simp
      · rcases List.mem_cons.mp h with h | h
        · subst h
          refine List.nodup_cons.mpr ⟨?_, List.nodup_singleton _⟩
          simp
        · simp at h)

/-- The object state built by `BatchVinaDocking.__init__` for the fields the
batch runner reads: the receptor→centers mapping, the resolved ligand list,
and the (initially empty) results dict (`batch_vina.py` lines 45–72). -/
structure BatchVinaState where
  receptors : List (String × List Center)
  ligands : List String
  results : List (VinaKey × Outcome)
deriving Repr

/-- `BatchVinaDocking.__init__` on a list-of-ligands input (`batch_vina.py`
lines 59–65 and 64–65): each entry is resolved
(`Path(l).expanduser().resolve()`, abstracted as `resolve`), then an empty
resolved list raises `ValueError("❌ No valid ligand PDBQT files found.")`
before `run_all` can ever be called — no task is scheduled, no worker
spawned, and no outcome map (not even a partial one) exists. -/
def batchVinaInit (resolve : String → String)
    (receptors_with_centers : List (String × List Center))
    (ligands : List String) : Except String BatchVinaState :=
  let ligs := ligands.map resolve
  if ligs.isEmpty then
    Except.error "❌ No valid ligand PDBQT files found."
  else
    Except.ok ⟨receptors_with_centers, ligs, []⟩

/-- C6: constructing a batch with an empty ligand list and a non-empty
receptor mapping raises the configuration error synchronously in `__init__`;
no object state (hence no scheduled task and no partial outcome map) is ever
produced. -/
theorem empty_ligands_config_error (resolve : String → String)
    (receptors : List (String × List Center)) (hrec : receptors ≠ []) :
    batchVinaInit resolve receptors []
        = Except.error "❌ No valid ligand PDBQT files found."
      ∧ ∀ st : BatchVinaState,
        batchVinaInit resolve receptors [] ≠ Except.ok st := by
  refine ⟨rfl, ?_⟩
  intro st h
  simp [batchVinaInit] at h

/-- Witness for `empty_ligands_config_error` with one receptor and one
center. -/
theorem empty_ligands_config_error_witness :
    batchVinaInit id [("R1.pdbqt", [((1 : ℚ), (2 : ℚ), (3 : ℚ))])] []
        = Except.error "❌ No valid ligand PDBQT files found."
      ∧ ∀ st : BatchVinaState,
        batchVinaInit id [("R1.pdbqt", [((1 : ℚ), (2 : ℚ), (3 : ℚ))])] []
          ≠ Except.ok st :=
  empty_ligands_config_error id [("R1.pdbqt", [((1 : ℚ), (2 : ℚ), (3 : ℚ))])]
    (by simp)

/-- Rounding of Python's `f"{c:.2f}"` on an exactly-representable (dyadic)
coordinate: the integer nearest `100·q`, ties to even (IEEE-754 /
`printf`-style fixed-point rounding), computed on the exact `num/den`
representation. -/
def roundHundredths (q : ℚ) : ℤ :=
  let n : ℤ := q.num * 100
  let d : ℤ := (q.den : ℤ)
  let f : ℤ := Int.fdiv n d
  let r : ℤ := n - f * d
  if 2 * r < d then f
  else if d < 2 * r then f + 1
  else if f % 2 = 0 then f else f + 1

/-- Python's `f"{c:.2f}"`: sign of the value, the rounded magnitude's
integer part, a dot, and exactly two decimal digits. -/
def fmt2 (q : ℚ) : String :=
  let n := roundHundredths q
  let sign := if q.num < 0 then "-" else ""
  let a := n.natAbs
  sign ++ toString (a / 100) ++ "."
    ++ (if a % 100 < 10 then "0" else "") ++ toString (a % 100)

/-- `center_str = "_".join(f"{c:.2f}" for c in center)` (`batch_vina.py`
lines 106 and 162). -/
def centerStr (c : Center) : String :=
  fmt2 c.1 ++ "_" ++ fmt2 c.2.1 ++ "_" ++ fmt2 c.2.2

/-- The per-task output subdirectory name
`f"{receptor.stem}_{ligand.stem}_center_{center_str}"` (`batch_vina.py`
line 107, `batch_autodock4.py` line 158). -/
def subdirName (receptorStem ligandStem : String) (c : Center) : String :=
  receptorStem ++ "_" ++ ligandStem ++ "_center_" ++ centerStr c

theorem string_eq_of_data_eq (s t : String) (h : s.data = t.data) : s = t := by
  cases s
  cases t
  exact congrArg String.mk h

/-- C5 counterexample: two tasks with the same receptor and ligand and two
DIFFERENT centers — `x = 31/256 = 0.12109375` versus
`x = 127/1024 = 0.1240234375`, both exactly representable as Python floats —
have distinct keys but identical output subdirectory names, because `%.2f`
formats both x-coordinates as `0.12`. -/
theorem subdirName_collision :
    ((mkRat 31 256, mkRat 0 1, mkRat 0 1) : Center)
        ≠ ((mkRat 127 1024, mkRat 0 1, mkRat 0 1) : Center)
      ∧ subdirName "R1" "L1" ((mkRat 31 256, mkRat 0 1, mkRat 0 1) : Center)
        = subdirName "R1" "L1"
            ((mkRat 127 1024, mkRat 0 1, mkRat 0 1) : Center) := by
  constructor
  · decide
  · decide

/-- C5 (amended): for two tasks with the same receptor and ligand, the
output subdirectory names differ whenever the centers' `%.2f`-formatted
strings differ; centers formatting identically at two decimals (see
`subdirName_collision`) share one subdirectory. -/
theorem subdirName_distinct_of_formatted_distinct
    (receptorStem ligandStem : String) (c₁ c₂ : Center)
    (h : centerStr c₁ ≠ centerStr c₂) :
    subdirName receptorStem ligandStem c₁
      ≠ subdirName receptorStem ligandStem c₂ := by
  intro he
  apply h
  have hd := congrArg String.data he
  simp only [subdirName, String.data_append, List.append_assoc] at hd
  have h1 := List.append_cancel_left hd
  have h2 := List.append_cancel_left h1
  have h3 := List.append_cancel_left h2
  have h4 := List.append_cancel_left h3
  exact string_eq_of_data_eq _ _ h4

/-- Witness for `subdirName_distinct_of_formatted_distinct`: centers
`(1,2,3)` and `(4,5,6)` of one receptor/ligand pair get distinct
subdirectories. -/
theorem subdirName_distinct_witness :
    subdirName "R1" "L1" ((mkRat 1 1, mkRat 2 1, mkRat 3 1) : Center)
      ≠ subdirName "R1" "L1" ((mkRat 4 1, mkRat 5 1, mkRat 6 1) : Center) :=
  subdirName_distinct_of_formatted_distinct "R1" "L1"
    ((mkRat 1 1, mkRat 2 1, mkRat 3 1) : Center)
    ((mkRat 4 1, mkRat 5 1, mkRat 6 1) : Center) (by decide)

/-- The relative names under `save_to` written by `BatchVinaDocking.run_all`
/ `BatchAD4Docking.run_all`: `run_all` creates `save_to` itself (lines
132–133) and each worker writes only inside its per-task subdirectory
`f"{receptor.stem}_{ligand.stem}_center_{center_str}"` (line 107 / 158)
passed to the single-docking engine's `run`. No other path is written — the
batch classes contain no summary-writing step. -/
def runAllVinaWrites (tasks : List VinaTask) : List String :=
  tasks.map fun t => subdirName t.receptor t.ligand t.center

/-- The methods defined by `class BatchVinaDocking` (`batch_vina.py`):
`__init__`, `_dock_one`, `run_all` — and nothing else. -/
def batchVinaMethods : List String := ["__init__", "_dock_one", "run_all"]

/-- The methods defined by `class BatchAD4Docking` (`batch_autodock4.py`):
`__init__`, `_dock_one`, `run_all` — and nothing else. -/
def batchAD4Methods : List String := ["__init__", "_dock_one", "run_all"]

/-- The method the batch-docking GUI page invokes on the batch object right
after `run_all` returns, to produce the combined summary CSV at the output
root (`streamlit_app/pages/batch_docking.py` line 433:
`df = batch.parse_results(save_to=csv_path)`). -/
def guiRequiredBatchMethod : String := "parse_results"

theorem infix_center_subdirName (r l : String) (c : Center) :
    "_center_".data <:+: (subdirName r l c).data := by
  refine ⟨(r ++ "_" ++ l).data, (centerStr c).data, ?_⟩
  simp [subdirName, String.data_append, List.append_assoc]

/-- C7 (code evaluated at the failing configuration): `run_all` never
writes `vina_summary.csv` / `ad4_summary.csv` (every name it creates is a
per-task subdirectory containing `_center_`), and the batch classes do not
define the `parse_results` method that the repository's own GUI calls on
them to produce the combined summary — so when `run_all` completes, no
combined summary file exists at the output root. -/
theorem no_combined_summary_from_run_all (tasks : List VinaTask) :
    "vina_summary.csv" ∉ runAllVinaWrites tasks
      ∧ "ad4_summary.csv" ∉ runAllVinaWrites tasks
      ∧ guiRequiredBatchMethod ∉ batchVinaMethods
      ∧ guiRequiredBatchMethod ∉ batchAD4Methods := by
  refine ⟨?_, ?_, by decide, by decide⟩
  · intro h
    obtain ⟨t, _, he⟩ := List.mem_map.mp h
    have hinf := infix_center_subdirName t.receptor t.ligand t.center
    rw [he] at hinf
    exact (by decide : ¬("_center_".data <:+: "vina_summary.csv".data)) hinf
  · intro h
    obtain ⟨t, _, he⟩ := List.mem_map.mp h
    have hinf := infix_center_subdirName t.receptor t.ligand t.center
    rw [he] at hinf
    exact (by decide : ¬("_center_".data <:+: "ad4_summary.csv".data)) hinf

/-- One data row of the P2Rank predictions CSV as seen through
`csv.DictReader`: the three center cells; `none` models a missing column, in
which case `row.get("center_x", row.get("   center_x", "0"))` falls back to
`"0"`. -/
structure PFRow where
  cx : Option String
  cy : Option String
  cz : Option String

/-- `row.get(key, "0")`: the cell's content, or `"0"` when absent. -/
def cellOrZero (c : Option String) : String := c.getD "0"

/-- Parse one row's three coordinates (`pocket_finder.py` lines 184–190);
`floatParse` models Python's `float(s.strip())`, `none` meaning it raises
`ValueError`. -/
def parseRowPF (floatParse : String → Option ℚ) (row : PFRow) : Option Center :=
  match floatParse (cellOrZero row.cx), floatParse (cellOrZero row.cy),
      floatParse (cellOrZero row.cz) with
  | some x, some y, some z => some (x, y, z)
  | _, _, _ => none

/-- The row loop of `PocketFinder._parse_output` (lines 182–193):
`enumerate(reader, start=1)` appends `{"rank": idx, "center": (x, y, z)}`
per row and raises on the first row whose coordinates fail to parse. -/
def parseRowsPF (floatParse : String → Option ℚ) :
    List PFRow → ℕ → Except String (List Pocket)
  | [], _ => .ok []
  | row :: rest, idx =>
    match parseRowPF floatParse row with
    | none => .error ("❌ Error parsing coordinates at row " ++ toString idx)
    | some c =>
      match parseRowsPF floatParse rest (idx + 1) with
      | .error e => .error e
      | .ok ps => .ok (⟨idx, c⟩ :: ps)

/-- `PocketFinder._parse_output` (lines 159–200): `csv = none` models the
missing predictions CSV (`FileNotFoundError`); a row-parse failure is
re-wrapped by the enclosing handler
(`❌ Failed to read prediction CSV: …`); an empty pocket list raises
`❌ No pocket centers found`. -/
def parse_output (floatParse : String → Option ℚ) :
    Option (List PFRow) → Except String (List Pocket)
  | none => .error "❌ Prediction CSV not found"
  | some rows =>
    match parseRowsPF floatParse rows 1 with
    | .error e => .error ("❌ Failed to read prediction CSV: " ++ e)
    | .ok pockets =>
      if pockets.isEmpty then .error "❌ No pocket centers found"
      else .ok pockets

theorem parseRowsPF_ok_ranks (floatParse : String → Option ℚ)
    (rows : List PFRow) (n : ℕ) (ps : List Pocket)
    (h : parseRowsPF floatParse rows n = Except.ok ps) :
    ps.length = rows.length
      ∧ ∀ i (hi : i < ps.length), (ps.get ⟨i, hi⟩).rank = n + i := by
  induction rows generalizing n ps with
  | nil =>
    simp [parseRowsPF] at h
    subst h
    exact ⟨rfl, fun i hi => absurd hi (by simp)⟩
  | cons row rest ih =>
    unfold parseRowsPF at h
    cases hrow : parseRowPF floatParse row with
    | none => rw [hrow] at h; exact absurd h (by simp)
    | some c =>
      rw [hrow] at h
      cases hrec : parseRowsPF floatParse rest (n + 1) with
      | error e => rw [hrec] at h; exact absurd h (by simp)
      | ok ps' =>
        rw [hrec] at h
        have hps : ps = ⟨n, c⟩ :: ps' := by
          have := h
          simp at this
          exact this.symm
        subst hps
        obtain ⟨hlen, hrank⟩ := ih (n + 1) ps' hrec
        refine ⟨by simp [hlen], ?_⟩
        intro i hi
        match i with
        | 0 => simp
        | j + 1 =>
          have hj : j < ps'.length := by
            simp at hi
            omega
          have hg := hrank j hj
          simp only [List.get_eq_getElem] at hg ⊢
          simp only [List.getElem_cons_succ]
          omega

theorem parseRowsPF_error_of_bad_row (floatParse : String → Option ℚ)
    (rows : List PFRow) (hbad : ∃ row ∈ rows, parseRowPF floatParse row = none) :
    ∀ n, ∃ e, parseRowsPF floatParse rows n = Except.error e := by
  induction rows with
  | nil => simp at hbad
  | cons row rest ih =>
    intro n
    cases hrow : parseRowPF floatParse row with
    | none =>
      exact ⟨_, by unfold parseRowsPF; rw [hrow]⟩
    | some c =>
      obtain ⟨r, hr, hnone⟩ := hbad
      rcases List.mem_cons.mp hr with hre | hre
      · rw [hre] at hnone
        rw [hnone] at hrow
        exact absurd hrow (by simp)
      · obtain ⟨e, he⟩ := ih ⟨r, hre, hnone⟩ (n + 1)
        refine ⟨e, ?_⟩
        unfold parseRowsPF
        rw [hrow, he]

/-- C8: pocket parsing returns records whose `rank` is exactly the 1-based
consecutive row index (one record per report row, in row order), and it
errors when the CSV is missing, when any row's coordinates fail to parse,
and when the report has no pocket rows. -/
theorem pocket_parse_spec (floatParse : String → Option ℚ) :
    (∀ rows pockets,
        parse_output floatParse (some rows) = Except.ok pockets →
          pockets.length = rows.length
            ∧ ∀ i (hi : i < pockets.length), (pockets.get ⟨i, hi⟩).rank = i + 1)
      ∧ parse_output floatParse none
          = Except.error "❌ Prediction CSV not found"
      ∧ (∀ rows, (∃ row ∈ rows, parseRowPF floatParse row = none) →
          ∃ e, parse_output floatParse (some rows) = Except.error e)
      ∧ parse_output floatParse (some [])
          = Except.error "❌ No pocket centers found" := by
  refine ⟨?_, rfl, ?_, rfl⟩
  · intro rows pockets h
    simp only [parse_output] at h
    cases hrec : parseRowsPF floatParse rows 1 with
    | error e => rw [hrec] at h; exact absurd h (by simp)
    | ok ps =>
      rw [hrec] at h
      by_cases hemp : ps.isEmpty
      · simp [hemp] at h
      · simp [hemp] at h
        subst h
        obtain ⟨hlen, hrank⟩ := parseRowsPF_ok_ranks floatParse rows 1 ps hrec
        refine ⟨hlen, ?_⟩
        intro i hi
        rw [hrank i hi]
        omega
  · intro rows hbad
    obtain ⟨e, he⟩ := parseRowsPF_error_of_bad_row floatParse rows hbad 1
    refine ⟨"❌ Failed to read prediction CSV: " ++ e, ?_⟩
    simp only [parse_output]
    rw [he]

/-- Witness for `pocket_parse_spec`: a two-row report parses to ranks 1, 2;
a report whose single row has an unparsable cell errors. -/
theorem pocket_parse_spec_witness :
    (([⟨1, (mkRat 1 1, mkRat 1 1, mkRat 1 1)⟩,
        ⟨2, (mkRat 1 1, mkRat 1 1, mkRat 1 1)⟩] : List Pocket).length
        = ([⟨some "x", some "x", some "x"⟩,
            ⟨some "x", some "x", some "x"⟩] : List PFRow).length
      ∧ ∀ i (hi : i < ([⟨1, (mkRat 1 1, mkRat 1 1, mkRat 1 1)⟩,
            ⟨2, (mkRat 1 1, mkRat 1 1, mkRat 1 1)⟩] : List Pocket).length),
          (([⟨1, (mkRat 1 1, mkRat 1 1, mkRat 1 1)⟩,
            ⟨2, (mkRat 1 1, mkRat 1 1, mkRat 1 1)⟩] : List Pocket).get
              ⟨i, hi⟩).rank = i + 1)
      ∧ ∃ e, parse_output (fun s => if s = "x" then some (mkRat 1 1) else none)
          (some [⟨some "bad", some "bad", some "bad"⟩]) = Except.error e :=
  ⟨(pocket_parse_spec fun s => if s = "x" then some (mkRat 1 1) else none).1
      [⟨some "x", some "x", some "x"⟩, ⟨some "x", some "x", some "x"⟩]
      [⟨1, (mkRat 1 1, mkRat 1 1, mkRat 1 1)⟩,
       ⟨2, (mkRat 1 1, mkRat 1 1, mkRat 1 1)⟩] rfl,
   (pocket_parse_spec fun s => if s = "x" then some (mkRat 1 1) else none).2.2.1
      [⟨some "bad", some "bad", some "bad"⟩]
      ⟨⟨some "bad", some "bad", some "bad"⟩, by simp, rfl⟩⟩

end DockSuiteX
